import Mathlib

/-!
# Verification of the docker-regclient image-fetch pipeline

This file gives a shallow embedding of the rate-limited metadata-fetch
pipeline of `main.go` (functions `fetch_images`,
`fetch_images_older_than_n_latest`, the `ByCreated` ordering, and the
`images` command's dispatch) together with the log output the pipeline
produces, and proves the specification's claims about them.

The registry (an external collaborator reached over HTTP) is modelled as a
pair of response functions: `tags` answers the tag-listing call `r.Tags`
and `imageDetails` answers the metadata call `r.ImageDetails` (keyed, as
in the source, by the combined string `repo ++ ":" ++ tag`); a `none`
answer models a failed call.  Creation timestamps (`time.Time` in Go) are
modelled as integers, which is faithful for everything the code does with
them: `Created.After` becomes `>` and sorting by `ByCreated.Less` becomes
sorting by the timestamp, descending.

Concurrency: the goroutines of `fetch_images` deliver images on `imgchan`
in a nondeterministic order, and `sort.Sort` is not stable, so the
observable output is a sorted permutation of the filtered successes.  We
model a run by an explicit arrival list that is a permutation of the
canonical success list (`fetchSuccesses`), and sort with insertion sort;
theorems about order-sensitive claims quantify over all arrival orders.
-/

/-- `api.DockerImage`: name, tag, content digest, creation time
(timestamps as integers). -/
structure DockerImage where
  name : String
  tag : String
  contentDigest : String
  created : Int
deriving DecidableEq, Repr

/-- `type ImgFilter func(img *api.DockerImage) bool`. -/
abbrev ImgFilter := DockerImage → Bool

/-- The registry collaborator: `tags repo` models `r.Tags(repo)`
(`none` = the call errored), `imageDetails s` models `r.ImageDetails(s)`
for the combined string `s = repo ++ ":" ++ tag` (`none` = the call
errored). -/
structure DockerRegistry where
  tags : String → Option (List String)
  imageDetails : String → Option DockerImage

/-- `ByCreated.Less i j` is `s[i].Created.After(s[j].Created)`; a slice
sorted by `sort.Sort(ByCreated(...))` therefore satisfies the reflexive
closure `createdGE a b`: `a` comes no later than `b` when
`a.created ≥ b.created`. -/
def createdGE (a b : DockerImage) : Prop := b.created ≤ a.created

instance : DecidableRel createdGE := fun a b =>
  inferInstanceAs (Decidable (b.created ≤ a.created))

instance : IsTotal DockerImage createdGE := ⟨fun a b => le_total b.created a.created⟩

instance : IsTrans DockerImage createdGE := ⟨fun _ _ _ h1 h2 => le_trans h2 h1⟩

/-- The tag-discovery goroutine for one repository
(`main.go:307-313`): on success its tag list reaches `tagschan`; on error
nothing is sent (and nothing is logged) and the repository contributes no
tags. -/
def repoDiscovered (r : DockerRegistry) (repo : String) : List String :=
  match r.tags repo with
  | none => []
  | some ts => ts

/-- The images that the metadata-fetch goroutines (`main.go:323-331`)
deliver on `imgchan` for one discovered repository: one per tag whose
`r.ImageDetails(repo ++ ":" ++ tag)` call succeeds, in canonical (tag
list) order. -/
def repoSuccesses (r : DockerRegistry) (repo : String) : List DockerImage :=
  (repoDiscovered r repo).filterMap (fun tag => r.imageDetails (repo ++ ":" ++ tag))

/-- The canonical list of all images delivered on `imgchan` during one
`fetch_images` run: repositories in the order supplied, tags in tag-list
order.  A real run observes these in an arbitrary permutation. -/
def fetchSuccesses (r : DockerRegistry) (repos : List String) : List DockerImage :=
  repos.flatMap (repoSuccesses r)

/-- The `(repo, tag)` pairs logged by one repository's metadata-fetch
goroutines (`log.Printf("Unable to get image (%s:%s): %s", ...)`,
`main.go:328`): exactly the discovered tags whose metadata call fails.
This is the only `log` call inside `fetch_images`; in particular a failed
tag-listing call logs nothing. -/
def repoLog (r : DockerRegistry) (repo : String) : List (String × String) :=
  ((repoDiscovered r repo).filter
      (fun tag => (r.imageDetails (repo ++ ":" ++ tag)).isNone)).map
    (fun tag => (repo, tag))

/-- All `(repo, tag)` pairs logged during one `fetch_images` run. -/
def fetch_imagesLog (r : DockerRegistry) (repos : List String) : List (String × String) :=
  repos.flatMap (repoLog r)

/-- The filter loop of the collector (`main.go:340-344`): the labelled
`continue Outer` skips an image as soon as one filter rejects it, so an
image is kept iff every filter in order returns true (short-circuit AND);
an empty chain keeps everything. -/
def passes (filters : List ImgFilter) (img : DockerImage) : Bool :=
  match filters with
  | [] => true
  | f :: fs => if !(f img) then false else passes fs img

/-- The collector (`main.go:337-346`): images arriving on `imgchan` are
appended, in arrival order, iff they pass every filter. -/
def collect (filters : List ImgFilter) (arrivals : List DockerImage) : List DockerImage :=
  arrivals.filter (fun img => passes filters img)

/-- One `fetch_images` run whose `imgchan` delivered `arrivals`: collect
the survivors and sort by creation date, descending
(`sort.Sort(ByCreated(imgs))`, `main.go:348`). -/
def fetch_images_run (filters : List ImgFilter) (arrivals : List DockerImage) :
    List DockerImage :=
  (collect filters arrivals).insertionSort createdGE

/-- `fetch_images(r, repos, filters)` (`main.go:288-350`) with the
canonical arrival order.  Theorems that depend on arrival order use
`fetch_images_run` with an arbitrary permutation of `fetchSuccesses`
instead. -/
def fetch_images (r : DockerRegistry) (repos : List String) (filters : List ImgFilter) :
    List DockerImage :=
  fetch_images_run filters (fetchSuccesses r repos)

/-- Go's slice expression `l[n:]` for an `int` index `n`: defined (and
equal to dropping the first `n` elements) when `0 ≤ n ≤ len(l)`,
a runtime panic (`none`) otherwise. -/
def goSliceFrom (l : List DockerImage) (n : Int) : Option (List DockerImage) :=
  if 0 ≤ n ∧ n ≤ (l.length : Int) then some (l.drop n.toNat) else none

/-- `fetch_images_older_than_n_latest(r, repos, filters, n)`
(`main.go:352-361`): for each repository in order, run the full pipeline
on that repository alone; when more than `n` images survive, append
`repoimgs[n:]` to the accumulated result.  `none` models the run
panicking at the slice expression. -/
def fetch_images_older_than_n_latest (r : DockerRegistry) (repos : List String)
    (filters : List ImgFilter) (n : Int) : Option (List DockerImage) :=
  match repos with
  | [] => some []
  | repo :: rest =>
    let repoimgs := fetch_images r [repo] filters
    if n < (repoimgs.length : Int) then
      match goSliceFrom repoimgs n with
      | none => none
      | some sliced =>
        match fetch_images_older_than_n_latest r rest filters n with
        | none => none
        | some tailimgs => some (sliced ++ tailimgs)
    else fetch_images_older_than_n_latest r rest filters n

/-- The `images` command's choice of pipeline (`main.go:459-463`): the
per-repository exclusion runs only when `--exclude-latest` is strictly
positive; otherwise the plain pipeline runs. -/
def imagesActionSelect (r : DockerRegistry) (repos : List String)
    (filters : List ImgFilter) (exclude_latest : Int) : Option (List DockerImage) :=
  if 0 < exclude_latest then
    fetch_images_older_than_n_latest r repos filters exclude_latest
  else
    some (fetch_images r repos filters)

/-- What one repository contributes to `fetch_images_older_than_n_latest`
for `n ≥ 0`: its own sorted, filtered pipeline result with the first `n`
entries dropped, or nothing when at most `n` survive. -/
def perRepoRemainder (r : DockerRegistry) (filters : List ImgFilter) (n : Int)
    (repo : String) : List DockerImage :=
  if n < ((fetch_images r [repo] filters).length : Int) then
    (fetch_images r [repo] filters).drop n.toNat
  else []

/-! ## Basic lemmas about the collector and sorter -/

/-- The short-circuit filter loop keeps an image iff every filter
accepts it. -/
theorem passes_eq_all (filters : List ImgFilter) (img : DockerImage) :
    passes filters img = filters.all (fun f => f img) := by
  induction filters with
  | nil => rfl
  | cons f fs ih =>
    simp only [passes, List.all_cons, ih]
    cases f img <;> simp

/-- Membership in a run's output: an image appears iff it arrived and
passes every filter. -/
theorem mem_fetch_images_run {filters : List ImgFilter} {arrivals : List DockerImage}
    {img : DockerImage} :
    img ∈ fetch_images_run filters arrivals ↔
      img ∈ arrivals ∧ passes filters img = true := by
  unfold fetch_images_run collect
  rw [List.mem_insertionSort, List.mem_filter]

/-- Every run's output is sorted by creation time, descending. -/
theorem sorted_fetch_images_run (filters : List ImgFilter) (arrivals : List DockerImage) :
    List.Sorted createdGE (fetch_images_run filters arrivals) :=
  List.sorted_insertionSort createdGE _

/-- The output of a run is a permutation of the filtered arrivals. -/
theorem fetch_images_run_perm (filters : List ImgFilter) (arrivals : List DockerImage) :
    (fetch_images_run filters arrivals).Perm (collect filters arrivals) :=
  List.perm_insertionSort createdGE _

/-! ## Concrete registry for witnesses -/

/-- A concrete image `webserver:devbuild-1`, created at time 1. -/
def imgDev1 : DockerImage := ⟨"webserver", "devbuild-1", "sha256:aaaa", 1⟩

/-- A concrete image `webserver:devbuild-2`, created at time 2. -/
def imgDev2 : DockerImage := ⟨"webserver", "devbuild-2", "sha256:bbbb", 2⟩

/-- A concrete image `webserver:devbuild-3`, created at time 3. -/
def imgDev3 : DockerImage := ⟨"webserver", "devbuild-3", "sha256:cccc", 3⟩

/-- A concrete image `backend:dev-54`, created at time 5. -/
def imgBack : DockerImage := ⟨"backend", "dev-54", "sha256:dddd", 5⟩

/-- A concrete registry holding three tags of `webserver` and one of
`backend`; every call to it succeeds. -/
def regW : DockerRegistry where
  tags := fun repo =>
    if repo = "webserver" then some ["devbuild-3", "devbuild-1", "devbuild-2"]
    else if repo = "backend" then some ["dev-54"]
    else none
  imageDetails := fun s =>
    if s = "webserver:devbuild-1" then some imgDev1
    else if s = "webserver:devbuild-2" then some imgDev2
    else if s = "webserver:devbuild-3" then some imgDev3
    else if s = "backend:dev-54" then some imgBack
    else none

/-- A filter accepting images created strictly before time 3
(the `--older-than` filter shape, `img.Created.Before(t)`). -/
def filterBefore3 : ImgFilter := fun img => img.created < 3

/-- A filter accepting tags containing `"dev"` (the `--tag-contains`
filter shape, `strings.Contains(img.Tag, s)`). -/
def filterTagDev : ImgFilter := fun img => (img.tag.splitOn "dev").length != 1

example : fetch_images regW ["webserver"] [] = [imgDev3, imgDev2, imgDev1] := by decide
example : fetch_images regW ["webserver"] [filterBefore3] = [imgDev2, imgDev1] := by decide

/-! ## Claim C2: filter-chain semantics of the collector -/

/-- C2: an image is retained by the collector iff every filter in the
ordered chain (evaluated with the short-circuiting loop `passes`) returns
true for it, and an empty filter chain accepts every image; hence the
collected set is exactly the images, among those delivered, accepted by
all filters. -/
theorem fetch_images_retains_iff_all_filters (r : DockerRegistry) (repos : List String)
    (filters : List ImgFilter) (img : DockerImage) :
    (img ∈ fetch_images r repos filters ↔
      img ∈ fetchSuccesses r repos ∧ ∀ f ∈ filters, f img = true)
    ∧ passes [] img = true := by
  constructor
  · rw [fetch_images, mem_fetch_images_run, passes_eq_all, List.all_eq_true]
  · rfl

/-! ## Claim C3: output sorted by creation time, descending -/

/-- C3: for every registry, repository list, filter chain and arrival
order of the fetched images, the sequence returned by `fetch_images` is
sorted by the `Created` timestamp in descending order (`createdGE`), and
the empty input yields the empty sequence.  (No relative order among
equal timestamps is claimed: any arrival order is allowed.) -/
theorem fetch_images_sorted_desc (r : DockerRegistry) (repos : List String)
    (filters : List ImgFilter) (arrivals : List DockerImage)
    (h : arrivals.Perm (fetchSuccesses r repos)) :
    List.Sorted createdGE (fetch_images_run filters arrivals)
    ∧ (fetchSuccesses r repos = [] → fetch_images_run filters arrivals = []) := by
  refine ⟨sorted_fetch_images_run filters arrivals, fun he => ?_⟩
  have hnil : arrivals = [] := (he ▸ h).eq_nil
  subst hnil
  rfl

/-- Witness for C3 at a concrete registry and a shuffled arrival order. -/
theorem fetch_images_sorted_desc_witness :
    List.Sorted createdGE (fetch_images_run [] [imgDev1, imgDev3, imgDev2])
    ∧ (fetchSuccesses regW ["webserver"] = [] →
        fetch_images_run [] [imgDev1, imgDev3, imgDev2] = []) :=
  fetch_images_sorted_desc regW ["webserver"] [] [imgDev1, imgDev3, imgDev2] (by decide)

/-! ## Claim C8: filter order does not affect the result -/

/-- C8: for every pair of filter chains that are permutations of each
other, every image is accepted by one chain iff by the other, and the
whole pipeline returns the same result with either chain. -/
theorem filter_order_irrelevant (filters1 filters2 : List ImgFilter)
    (hp : filters1.Perm filters2) :
    (∀ img, passes filters1 img = passes filters2 img)
    ∧ ∀ (r : DockerRegistry) (repos : List String),
        fetch_images r repos filters1 = fetch_images r repos filters2 := by
  have hpass : ∀ img, passes filters1 img = passes filters2 img := by
    intro img
    rw [passes_eq_all, passes_eq_all]
    rw [Bool.eq_iff_iff]
    simp only [List.all_eq_true]
    exact ⟨fun h f hf => h f (hp.mem_iff.mpr hf), fun h f hf => h f (hp.mem_iff.mp hf)⟩
  refine ⟨hpass, fun r repos => ?_⟩
  unfold fetch_images fetch_images_run collect
  congr 1
  exact List.filter_congr (fun img _ => hpass img)

/-- Witness for C8: swapping two concrete filters changes nothing. -/
theorem filter_order_irrelevant_witness :
    passes [filterBefore3, filterTagDev] imgDev1 = passes [filterTagDev, filterBefore3] imgDev1
    ∧ fetch_images regW ["webserver"] [filterBefore3, filterTagDev]
        = fetch_images regW ["webserver"] [filterTagDev, filterBefore3] :=
  ⟨(filter_order_irrelevant _ _ (List.Perm.swap filterTagDev filterBefore3 [])).1 imgDev1,
   (filter_order_irrelevant _ _ (List.Perm.swap filterTagDev filterBefore3 [])).2
     regW ["webserver"]⟩

/-! ## Claim C1: per-repository decomposition of the Top-N exclusion -/

/-- Sorted lists stay sorted after dropping a prefix. -/
theorem sorted_drop {l : List DockerImage} (h : List.Sorted createdGE l) (k : Nat) :
    List.Sorted createdGE (l.drop k) :=
  h.sublist (List.drop_sublist k l)

/-- C1: for every registry, repository list, filter chain and `n ≥ 0`,
`fetch_images_older_than_n_latest` equals the concatenation, in the order
repositories were supplied, of each repository's independent pipeline
result with its `n` most recent entries dropped (nothing when at most `n`
survive); each remainder is still sorted by creation time descending, and
no cross-repository sort is applied. -/
theorem fetch_images_older_than_n_latest_decomposition (r : DockerRegistry)
    (repos : List String) (filters : List ImgFilter) (n : Int) (hn : 0 ≤ n) :
    fetch_images_older_than_n_latest r repos filters n
      = some (repos.flatMap (perRepoRemainder r filters n))
    ∧ ∀ repo, List.Sorted createdGE (perRepoRemainder r filters n repo) := by
  constructor
  · induction repos with
    | nil => rfl
    | cons repo rest ih =>
      rw [List.flatMap_cons]
      unfold fetch_images_older_than_n_latest
      by_cases hlen : n < ((fetch_images r [repo] filters).length : Int)
      · have hslice : goSliceFrom (fetch_images r [repo] filters) n
            = some ((fetch_images r [repo] filters).drop n.toNat) := by
          unfold goSliceFrom
          rw [if_pos ⟨hn, le_of_lt hlen⟩]
        simp only [hlen, if_pos, hslice, ih, perRepoRemainder, if_true]
      · simp only [hlen, if_neg, ih, perRepoRemainder, if_false, List.nil_append]
  · intro repo
    unfold perRepoRemainder
    by_cases hlen : n < ((fetch_images r [repo] filters).length : Int)
    · rw [if_pos hlen]
      exact sorted_drop (sorted_fetch_images_run _ _) _
    · rw [if_neg hlen]
      exact List.sorted_nil

/-- Witness for C1 at the concrete registry, `n = 1`. -/
theorem fetch_images_older_than_n_latest_decomposition_witness :
    fetch_images_older_than_n_latest regW ["webserver", "backend"] [] 1
      = some (["webserver", "backend"].flatMap (perRepoRemainder regW [] 1))
    ∧ List.Sorted createdGE (perRepoRemainder regW [] 1 "webserver") :=
  ⟨(fetch_images_older_than_n_latest_decomposition regW ["webserver", "backend"] []
      1 (by decide)).1,
   (fetch_images_older_than_n_latest_decomposition regW ["webserver", "backend"] []
      1 (by decide)).2 "webserver"⟩

/-! ## Claim C6: the n = 0 guard and repositories with at most n images -/

/-- C6: the `images` command invokes the per-repository exclusion only
for `n ≥ 1` — with `n = 0` (or any non-positive `n`) the exclusion
operation is not applied and the plain pipeline runs instead — and a
repository whose surviving-image count is at most `n` contributes zero
images to the exclusion result. -/
theorem exclusion_requires_positive_n (r : DockerRegistry) (repos rest : List String)
    (repo : String) (filters : List ImgFilter) (n : Int) :
    (n ≤ 0 → imagesActionSelect r repos filters n = some (fetch_images r repos filters))
    ∧ (((fetch_images r [repo] filters).length : Int) ≤ n →
        fetch_images_older_than_n_latest r (repo :: rest) filters n
          = fetch_images_older_than_n_latest r rest filters n) := by
  constructor
  · intro hn
    unfold imagesActionSelect
    rw [if_neg (not_lt.mpr hn)]
  · intro hc
    conv_lhs => rw [fetch_images_older_than_n_latest]
    simp only [not_lt.mpr hc, if_neg, if_false]

/-- Witness for C6: `n = 0` runs the plain pipeline; `backend` (1
surviving image) contributes nothing for `n = 3`. -/
theorem exclusion_requires_positive_n_witness :
    imagesActionSelect regW ["webserver"] [] 0 = some (fetch_images regW ["webserver"] [])
    ∧ fetch_images_older_than_n_latest regW ["backend", "webserver"] [] 3
        = fetch_images_older_than_n_latest regW ["webserver"] [] 3 :=
  ⟨(exclusion_requires_positive_n regW ["webserver"] [] "x" [] 0).1 (by decide),
   (exclusion_requires_positive_n regW ["webserver"] ["webserver"] "backend" [] 3).2
     (by decide)⟩

/-! ## Claim C10: bounds of the slice expression `repoimgs[n:]` -/

/-- C10: under the guard `len(repoimgs) > n` the slice `repoimgs[n:]` is
in range for every `n ≥ 0`, so the whole run returns a value; for `n < 0`
the guard still holds (a length is never negative), so the out-of-range
slice — a runtime panic, modelled as `none` — is reached for any
non-empty repository list, even when every repository has zero surviving
images. -/
theorem slice_in_range_iff_nonneg (r : DockerRegistry) (repos : List String)
    (filters : List ImgFilter) (n : Int) :
    (0 ≤ n → (fetch_images_older_than_n_latest r repos filters n).isSome = true)
    ∧ (n < 0 → repos ≠ [] →
        fetch_images_older_than_n_latest r repos filters n = none) := by
  constructor
  · intro hn
    induction repos with
    | nil => rfl
    | cons repo rest ih =>
      unfold fetch_images_older_than_n_latest
      by_cases hlen : n < ((fetch_images r [repo] filters).length : Int)
      · have hslice : goSliceFrom (fetch_images r [repo] filters) n
            = some ((fetch_images r [repo] filters).drop n.toNat) := by
          unfold goSliceFrom
          rw [if_pos ⟨hn, le_of_lt hlen⟩]
        cases hrest : fetch_images_older_than_n_latest r rest filters n with
        | none => rw [hrest] at ih; exact absurd ih (by simp)
        | some t => simp only [hlen, if_pos, hslice, hrest, Option.isSome_some]
      · simp only [hlen, if_neg, if_false]
        exact ih
  · intro hn hne
    cases repos with
    | nil => exact absurd rfl hne
    | cons repo rest =>
      have hlen : n < ((fetch_images r [repo] filters).length : Int) :=
        lt_of_lt_of_le hn (Int.natCast_nonneg _)
      have hslice : goSliceFrom (fetch_images r [repo] filters) n = none := by
        unfold goSliceFrom
        rw [if_neg (fun h => absurd h.1 (not_le.mpr hn))]
      unfold fetch_images_older_than_n_latest
      simp only [hlen, if_pos, hslice, if_true]

/-- Witness for C10: `n = 0` succeeds; `n = -1` panics even on a
repository with zero surviving images. -/
theorem slice_in_range_iff_nonneg_witness :
    (fetch_images_older_than_n_latest regW ["webserver"] [] 0).isSome = true
    ∧ fetch_images_older_than_n_latest regW ["unknownrepo"] [] (-1) = none :=
  ⟨(slice_in_range_iff_nonneg regW ["webserver"] [] 0).1 (by decide),
   (slice_in_range_iff_nonneg regW ["unknownrepo"] [] (-1)).2 (by decide)
     (List.cons_ne_nil _ _)⟩

/-! ## Lemmas about dropped items -/

/-- Filtering out list elements on which `f` returns `none` does not
change a `filterMap`. -/
theorem filterMap_filter_of_none {α β : Type} (f : α → Option β) (p : α → Bool)
    (l : List α) (h : ∀ x ∈ l, p x = false → f x = none) :
    (l.filter p).filterMap f = l.filterMap f := by
  induction l with
  | nil => rfl
  | cons a l ih =>
    have ih' := ih (fun x hx hpx => h x (List.mem_cons_of_mem _ hx) hpx)
    by_cases hp : p a
    · simp only [List.filter_cons, hp, if_true, List.filterMap_cons, ih']
    · have hf := h a (List.mem_cons_self a l) (by simpa using hp)
      simp [List.filter_cons, hp, hf, ih']

/-- Filtering out list elements on which `f` returns `[]` does not
change a `flatMap`. -/
theorem flatMap_filter_of_nil {α β : Type} (f : α → List β) (p : α → Bool)
    (l : List α) (h : ∀ x ∈ l, p x = false → f x = []) :
    (l.filter p).flatMap f = l.flatMap f := by
  induction l with
  | nil => rfl
  | cons a l ih =>
    have ih' := ih (fun x hx hpx => h x (List.mem_cons_of_mem _ hx) hpx)
    by_cases hp : p a
    · simp only [List.filter_cons, hp, if_true, List.flatMap_cons, ih']
    · have hf := h a (List.mem_cons_self a l) (by simpa using hp)
      simp [List.filter_cons, hp, hf, ih']

/-- Two sorted runs that are permutations of each other list the same
creation timestamps in the same positions. -/
theorem map_created_eq_of_perm_sorted {l1 l2 : List DockerImage}
    (hp : l1.Perm l2) (h1 : List.Sorted createdGE l1) (h2 : List.Sorted createdGE l2) :
    l1.map (fun img => img.created) = l2.map (fun img => img.created) := by
  refine List.eq_of_perm_of_sorted (r := fun a b : Int => b ≤ a)
    (hp.map _) ?_ ?_
  · exact List.Pairwise.map (fun img : DockerImage => img.created)
      (fun a b hab => hab) h1
  · exact List.Pairwise.map (fun img : DockerImage => img.created)
      (fun a b hab => hab) h2

/-! ## Claim C9: determinism modulo equal-timestamp ties -/

/-- C9: against a fixed registry state, two runs of the pipeline with the
same repositories and filters — differing only in the order images
happened to arrive — return the same images (a permutation of each other)
with identical creation-timestamp sequences, both sorted descending; any
difference between the two outputs is therefore confined to the relative
order of images with equal timestamps. -/
theorem pipeline_deterministic_mod_ties (r : DockerRegistry) (repos : List String)
    (filters : List ImgFilter) (a1 a2 : List DockerImage)
    (h1 : a1.Perm (fetchSuccesses r repos)) (h2 : a2.Perm (fetchSuccesses r repos)) :
    (fetch_images_run filters a1).Perm (fetch_images_run filters a2)
    ∧ (fetch_images_run filters a1).map (fun img => img.created)
        = (fetch_images_run filters a2).map (fun img => img.created)
    ∧ List.Sorted createdGE (fetch_images_run filters a1)
    ∧ List.Sorted createdGE (fetch_images_run filters a2) := by
  have hc : (collect filters a1).Perm (collect filters a2) :=
    (h1.trans h2.symm).filter _
  have hperm : (fetch_images_run filters a1).Perm (fetch_images_run filters a2) :=
    (fetch_images_run_perm filters a1).trans
      (hc.trans (fetch_images_run_perm filters a2).symm)
  exact ⟨hperm,
    map_created_eq_of_perm_sorted hperm (sorted_fetch_images_run _ _)
      (sorted_fetch_images_run _ _),
    sorted_fetch_images_run _ _, sorted_fetch_images_run _ _⟩

/-- Witness for C9: two shuffled arrival orders of the same registry
state give outputs with identical timestamp sequences. -/
theorem pipeline_deterministic_mod_ties_witness :
    (fetch_images_run [] [imgDev1, imgDev2, imgDev3]).Perm
      (fetch_images_run [] [imgDev2, imgDev3, imgDev1])
    ∧ (fetch_images_run [] [imgDev1, imgDev2, imgDev3]).map (fun img => img.created)
        = (fetch_images_run [] [imgDev2, imgDev3, imgDev1]).map (fun img => img.created)
    ∧ List.Sorted createdGE (fetch_images_run [] [imgDev1, imgDev2, imgDev3])
    ∧ List.Sorted createdGE (fetch_images_run [] [imgDev2, imgDev3, imgDev1]) :=
  pipeline_deterministic_mod_ties regW ["webserver"] []
    [imgDev1, imgDev2, imgDev3] [imgDev2, imgDev3, imgDev1] (by decide) (by decide)

/-! ## Claim C4: isolation of a metadata-fetch failure -/

/-- C4: when the metadata fetch for one discovered `(repository, tag)`
pair fails, that failure is logged and the tag is dropped; every other
successfully fetched image that passes the filters still appears in the
result, which is still sorted; the run returns a plain (possibly shorter)
sequence — no aggregate error exists in its type — and its output is
identical to that of a registry that simply does not have the failing
tag, so the caller cannot tell a partial failure from fewer matching
images. -/
theorem metadata_failure_isolated (r : DockerRegistry) (repos : List String)
    (filters : List ImgFilter) (repo0 tag0 : String) (ts : List String)
    (hrepo : repo0 ∈ repos) (htags : r.tags repo0 = some ts) (htag : tag0 ∈ ts)
    (hfail : r.imageDetails (repo0 ++ ":" ++ tag0) = none) :
    (repo0, tag0) ∈ fetch_imagesLog r repos
    ∧ (∀ img ∈ fetchSuccesses r repos, passes filters img = true →
        img ∈ fetch_images r repos filters)
    ∧ List.Sorted createdGE (fetch_images r repos filters)
    ∧ fetch_images
        ⟨fun repo => if repo = repo0 then some (ts.filter (fun t => t ≠ tag0))
                     else r.tags repo,
         r.imageDetails⟩ repos filters
      = fetch_images r repos filters := by
  refine ⟨?_, ?_, sorted_fetch_images_run _ _, ?_⟩
  · rw [fetch_imagesLog, List.mem_flatMap]
    refine ⟨repo0, hrepo, ?_⟩
    rw [repoLog, List.mem_map]
    refine ⟨tag0, ?_, rfl⟩
    rw [List.mem_filter]
    refine ⟨?_, by rw [hfail]; rfl⟩
    rw [repoDiscovered, htags]
    exact htag
  · intro img hmem hpass
    exact mem_fetch_images_run.mpr ⟨hmem, hpass⟩
  · have hrs : ∀ repo,
        repoSuccesses
          ⟨fun rp => if rp = repo0 then some (ts.filter (fun t => t ≠ tag0))
                     else r.tags rp,
           r.imageDetails⟩ repo
          = repoSuccesses r repo := by
      intro repo
      by_cases hrp : repo = repo0
      · subst hrp
        simp only [repoSuccesses, repoDiscovered, htags, if_pos, ite_true,
          eq_self_iff_true]
        exact filterMap_filter_of_none _ _ ts (fun t _ hpt => by
          have ht0 : t = tag0 := by simpa using hpt
          rw [ht0]
          exact hfail)
      · simp only [repoSuccesses, repoDiscovered, hrp, if_neg, ite_false]
    rw [fetch_images, fetch_images, fetchSuccesses, fetchSuccesses]
    congr 1
    exact List.flatMap_congr (fun repo _ => hrs repo)

/-- A registry where the metadata call for `webserver:broken` fails while
its two sibling tags succeed. -/
def regFail : DockerRegistry where
  tags := fun repo =>
    if repo = "webserver" then some ["devbuild-1", "broken", "devbuild-2"] else none
  imageDetails := fun s =>
    if s = "webserver:devbuild-1" then some imgDev1
    else if s = "webserver:devbuild-2" then some imgDev2
    else none

/-- `regFail` with the failing tag absent instead of failing. -/
def regFailClean : DockerRegistry :=
  ⟨fun repo =>
    if repo = "webserver" then
      some (["devbuild-1", "broken", "devbuild-2"].filter (fun t => t ≠ "broken"))
    else regFail.tags repo,
   regFail.imageDetails⟩

/-- Witness for C4: the failed tag is logged, a sibling image survives in
sorted output, and the output equals that of the registry without the
failing tag. -/
theorem metadata_failure_isolated_witness :
    ("webserver", "broken") ∈ fetch_imagesLog regFail ["webserver"]
    ∧ imgDev1 ∈ fetch_images regFail ["webserver"] []
    ∧ List.Sorted createdGE (fetch_images regFail ["webserver"] [])
    ∧ fetch_images regFailClean ["webserver"] [] = fetch_images regFail ["webserver"] [] :=
  have h := metadata_failure_isolated regFail ["webserver"] [] "webserver" "broken"
    ["devbuild-1", "broken", "devbuild-2"] (by decide) (by decide) (by decide) (by decide)
  ⟨h.1, h.2.1 imgDev1 (by decide) (by decide), h.2.2.1, h.2.2.2⟩

/-! ## Claim C7: a failed tag-listing call is silent, not logged -/

/-- A registry where the tag-listing call for `webserver` fails while
`backend` resolves normally. -/
def regTagsFail : DockerRegistry where
  tags := fun repo => if repo = "backend" then some ["dev-54"] else none
  imageDetails := fun s => if s = "backend:dev-54" then some imgBack else none

/-- Counterexample to C7 as stated: at this registry the tag-listing
call for `"webserver"` fails, yet the run emits no log line at all — the
discovery goroutine (`main.go:307-313`) checks `err == nil` and simply
does not send, with no `log` call on the error path; only metadata-fetch
failures are logged. -/
theorem discovery_failure_not_logged_cex :
    regTagsFail.tags "webserver" = none
    ∧ fetch_imagesLog regTagsFail ["webserver", "backend"] = [] := by
  constructor
  · rfl
  · decide

/-- C7 (amended): for every repository whose tag-listing call fails
during discovery, the failure is silently swallowed — the run logs no
entry for that repository — and the repository contributes zero tags and
zero images, while every sibling repository proceeds unaffected: both the
result and the log equal those of the run with the failing repository
removed from the supplied list. -/
theorem discovery_failure_silent (r : DockerRegistry) (repos : List String)
    (filters : List ImgFilter) (repo0 : String) (hfail : r.tags repo0 = none) :
    (∀ tag, (repo0, tag) ∉ fetch_imagesLog r repos)
    ∧ repoSuccesses r repo0 = []
    ∧ fetch_images r repos filters
        = fetch_images r (repos.filter (fun repo => repo ≠ repo0)) filters
    ∧ fetch_imagesLog r repos
        = fetch_imagesLog r (repos.filter (fun repo => repo ≠ repo0)) := by
  have hdisc : repoDiscovered r repo0 = [] := by
    rw [repoDiscovered, hfail]
  have hsucc : repoSuccesses r repo0 = [] := by
    rw [repoSuccesses, hdisc]
    rfl
  have hlog : repoLog r repo0 = [] := by
    rw [repoLog, hdisc]
    rfl
  refine ⟨?_, hsucc, ?_, ?_⟩
  · intro tag hmem
    rw [fetch_imagesLog, List.mem_flatMap] at hmem
    obtain ⟨repo, _, hin⟩ := hmem
    rw [repoLog, List.mem_map] at hin
    obtain ⟨t, htmem, ht⟩ := hin
    have hre : repo = repo0 := congrArg Prod.fst ht
    rw [hre, hdisc] at htmem
    simp at htmem
  · rw [fetch_images, fetch_images, fetchSuccesses, fetchSuccesses,
      flatMap_filter_of_nil _ _ repos (fun x _ hx => by
        have hx0 : x = repo0 := by simpa using hx
        rw [hx0]
        exact hsucc)]
  · rw [fetch_imagesLog, fetch_imagesLog,
      flatMap_filter_of_nil _ _ repos (fun x _ hx => by
        have hx0 : x = repo0 := by simpa using hx
        rw [hx0]
        exact hlog)]

/-- Witness for C7 (amended) at the concrete registry: no log entry for
the failed repository, zero contribution, siblings unaffected. -/
theorem discovery_failure_silent_witness :
    ("webserver", "dev-54") ∉ fetch_imagesLog regTagsFail ["webserver", "backend"]
    ∧ repoSuccesses regTagsFail "webserver" = []
    ∧ fetch_images regTagsFail ["webserver", "backend"] []
        = fetch_images regTagsFail
            (["webserver", "backend"].filter (fun repo => repo ≠ "webserver")) []
    ∧ fetch_imagesLog regTagsFail ["webserver", "backend"]
        = fetch_imagesLog regTagsFail
            (["webserver", "backend"].filter (fun repo => repo ≠ "webserver")) :=
  have h := discovery_failure_silent regTagsFail ["webserver", "backend"] []
    "webserver" (by decide)
  ⟨h.1 "dev-54", h.2.1, h.2.2.1, h.2.2.2⟩
